import Mathlib

/-!
Verification of the portable binary codec in src/portable_binary.c.

The C file serializes a 32-bit signed integer and a 32-bit float in a fixed
big-endian byte order, plus a two-field record built from them.  The shallow
embedding below models:

  - a byte sink as the list of bytes emitted (the write functions return the
    bytes they pass to fwrite, in order);
  - a byte source as the list of bytes still unread in the FILE; reading
    consumes from its front;
  - the 4-byte stack buffer uint8_t bytes[4] of each read function, whose
    content before the fread call is arbitrary (uninitialized storage), as an
    explicit junk argument: fread copies the available bytes of the source
    into the front of the buffer and leaves the rest of the buffer as it was.
    The C code never inspects the value returned by fread, so the model does
    not return it either;
  - a float value by its 32-bit storage pattern (a Nat below 2 to the 32).
    The code never does numeric float arithmetic: write_float reads the
    pattern through a pointer cast and read_float rebuilds a float from a
    pattern, both bit-identical reinterpretations, so the pattern is the
    whole state of the value.

Machine arithmetic is made explicit: the arithmetic right shift of a
twos-complement int32_t equals floor division by the corresponding power of
two, which for a positive divisor is the Int division of Lean; masking with
0xFF equals emod 256; the conversion of the assembled pattern to the
int32_t return type is the twos-complement reinterpretation toInt32.
-/

namespace PortableBinary

/-- Reinterpret a 32-bit pattern as a twos-complement signed value, as the C
conversion of an assembled 32-bit pattern to int32_t does. -/
def toInt32 (n : Nat) : Int :=
  if n < 2 ^ 31 then (n : Int) else (n : Int) - 2 ^ 32

/-- Embeds write_int32 (portable_binary.c lines 20 to 28): split the value
into four bytes with arithmetic right shifts by 24, 16, 8, 0 masked to 8
bits, most significant byte first, and emit them.  The shift value >> k on a
twos-complement int32_t is floor division by 2 ^ k, and the mask & 0xFF of
a signed int keeps its low 8 bits, which is emod 256. -/
def write_int32 (value : Int) : List Nat :=
  [ ((value / 2 ^ 24) % 256).toNat
  , ((value / 2 ^ 16) % 256).toNat
  , ((value / 2 ^ 8) % 256).toNat
  , (value % 256).toNat ]

/-- A C float value, represented by its 32-bit IEEE-754 binary32 storage
pattern.  The source only ever moves this pattern around through bit-level
reinterpretation, so the pattern is all the state a value has. -/
structure CFloat where
  bits : Nat
deriving DecidableEq

/-- Embeds write_float (portable_binary.c lines 31 to 40): reinterpret the
float storage as uint32_t (the pattern itself) and split it into four bytes,
most significant first, with logical shifts and masks. -/
def write_float (value : CFloat) : List Nat :=
  let as_int := value.bits
  [ (as_int >>> 24) &&& 0xFF
  , (as_int >>> 16) &&& 0xFF
  , (as_int >>> 8) &&& 0xFF
  , as_int &&& 0xFF ]

/-- Model of fread(bytes, 4, 1, file) into the 4-byte stack buffer: the
available bytes of the source (at most 4) are copied into the front of the
buffer; the remaining buffer positions keep their previous, uninitialized
content junk.  The count fread returns is discarded, because the C code
discards it. -/
def fread4 (src junk : List Nat) : List Nat :=
  (src.take 4 ++ junk.drop (min 4 src.length)).take 4

/-- Embeds read_int32 (portable_binary.c lines 43 to 48): fill the 4-byte
buffer from the source, assemble (b0 << 24) | (b1 << 16) | (b2 << 8) | b3,
truncate to 32 bits and reinterpret the pattern as the signed int32_t return
value.  The second component is the source state after the call. -/
def read_int32 (src junk : List Nat) : Int × List Nat :=
  let bytes := fread4 src junk
  ( toInt32 ((bytes.getD 0 0 <<< 24 ||| bytes.getD 1 0 <<< 16 |||
      bytes.getD 2 0 <<< 8 ||| bytes.getD 3 0) % 2 ^ 32)
  , src.drop 4 )

/-- Embeds read_float (portable_binary.c lines 51 to 57): fill the 4-byte
buffer from the source, assemble the same big-endian 32-bit pattern into the
uint32_t as_int, and reinterpret that pattern as the float result. -/
def read_float (src junk : List Nat) : CFloat × List Nat :=
  let bytes := fread4 src junk
  ( ⟨(bytes.getD 0 0 <<< 24 ||| bytes.getD 1 0 <<< 16 |||
      bytes.getD 2 0 <<< 8 ||| bytes.getD 3 0) % 2 ^ 32⟩
  , src.drop 4 )

/-- Embeds MyStruct (portable_binary.c lines 59 to 63). -/
structure MyStruct where
  id : Int
  value : CFloat
deriving DecidableEq

/-- Embeds write_struct (portable_binary.c lines 65 to 69): write the id
field, then the value field, into the same sink. -/
def write_struct (s : MyStruct) : List Nat :=
  write_int32 s.id ++ write_float s.value

/-- Embeds read_struct (portable_binary.c lines 71 to 75): read the id field,
then the value field, from the same source; each read has its own
uninitialized stack buffer. -/
def read_struct (src junk1 junk2 : List Nat) : MyStruct × List Nat :=
  let r1 := read_int32 src junk1
  let r2 := read_float r1.2 junk2
  (⟨r1.1, r2.1⟩, r2.2)

/-! Arithmetic helper lemmas shared by the claim theorems. -/

/-- The big-endian assembly of four bytes as a sum of shifted bytes. -/
theorem be32_or_eq_add (b0 b1 b2 b3 : Nat) (h0 : b0 < 256) (h1 : b1 < 256)
    (h2 : b2 < 256) (h3 : b3 < 256) :
    b0 <<< 24 ||| b1 <<< 16 ||| b2 <<< 8 ||| b3 =
      b0 * 2 ^ 24 + b1 * 2 ^ 16 + b2 * 2 ^ 8 + b3 := by
  rw [Nat.shiftLeft_eq, Nat.shiftLeft_eq, Nat.shiftLeft_eq]
  rw [show b0 * 2 ^ 24 = 2 ^ 24 * b0 by ring,
    ← Nat.mul_add_lt_is_or (show b1 * 2 ^ 16 < 2 ^ 24 by omega) b0]
  rw [show 2 ^ 24 * b0 + b1 * 2 ^ 16 = 2 ^ 16 * (b0 * 2 ^ 8 + b1) by ring,
    ← Nat.mul_add_lt_is_or (show b2 * 2 ^ 8 < 2 ^ 16 by omega) (b0 * 2 ^ 8 + b1)]
  rw [show 2 ^ 16 * (b0 * 2 ^ 8 + b1) + b2 * 2 ^ 8 =
      2 ^ 8 * (b0 * 2 ^ 16 + b1 * 2 ^ 8 + b2) by ring,
    ← Nat.mul_add_lt_is_or h3 (b0 * 2 ^ 16 + b1 * 2 ^ 8 + b2)]

/-- Reading back the four bytes written for an in-range value, with any
trailing bytes after them, yields the value and leaves exactly the trailing
bytes unread: the core of the integer round trip. -/
theorem read_write_int32_core (v : Int) (rest junk : List Nat)
    (hlo : -(2 ^ 31) ≤ v) (hhi : v < 2 ^ 31) :
    read_int32 (write_int32 v ++ rest) junk = (v, rest) := by
  simp only [read_int32, write_int32, fread4, List.length_cons, List.length_nil,
    List.take_succ_cons, List.take_nil, List.take_zero, List.cons_append,
    List.nil_append, List.getD_cons_zero, List.getD_cons_succ, List.drop_succ_cons,
    List.drop_nil, List.drop_zero, List.take_append]
  rw [be32_or_eq_add _ _ _ _ (by omega) (by omega) (by omega) (by omega)]
  refine Prod.ext ?_ rfl
  simp only [toInt32]
  split <;> omega

/-- Reading back the four bytes written for a float pattern below 2 ^ 32,
with any trailing bytes after them, yields the same pattern and leaves
exactly the trailing bytes unread: the core of the float round trip. -/
theorem read_write_float_core (value : CFloat) (rest junk : List Nat)
    (h : value.bits < 2 ^ 32) :
    read_float (write_float value ++ rest) junk = (value, rest) := by
  obtain ⟨bits⟩ := value
  replace h : bits < 2 ^ 32 := h
  simp only [read_float, write_float, fread4, List.length_cons, List.length_nil,
    List.take_succ_cons, List.take_nil, List.take_zero, List.cons_append,
    List.nil_append, List.getD_cons_zero, List.getD_cons_succ, List.drop_succ_cons,
    List.drop_nil, List.drop_zero, List.take_append]
  rw [show (0xFF : Nat) = 2 ^ 8 - 1 from rfl]
  simp only [Nat.and_pow_two_sub_one_eq_mod, Nat.shiftRight_eq_div_pow]
  rw [be32_or_eq_add _ _ _ _ (by omega) (by omega) (by omega) (by omega)]
  refine Prod.ext ?_ rfl
  simp only [CFloat.mk.injEq]
  omega

/-- When at least four bytes are available, the fread buffer is exactly the
first four source bytes and the uninitialized content is irrelevant. -/
theorem fread4_of_le_length (src junk : List Nat) (h : 4 ≤ src.length) :
    fread4 src junk = src.take 4 := by
  have hl : (src.take 4).length = 4 := by
    rw [List.length_take]; omega
  simp only [fread4]
  rw [List.take_left' hl]

/-! The claim theorems. -/

/-- C1: for every 32-bit signed integer v, decoding the 4 bytes produced by
encoding v returns v exactly: read_int32 applied to the bytes emitted by
write_int32 yields v, for any uninitialized buffer content. -/
theorem int32_roundtrip (v : Int) (junk : List Nat)
    (hlo : -(2 ^ 31) ≤ v) (hhi : v < 2 ^ 31) :
    (read_int32 (write_int32 v) junk).1 = v := by
  have h := read_write_int32_core v [] junk hlo hhi
  rw [List.append_nil] at h
  rw [h]

/-- Witness for C1 at the concrete value -123456. -/
theorem int32_roundtrip_witness :
    (read_int32 (write_int32 (-123456)) []).1 = -123456 :=
  int32_roundtrip (-123456) [] (by decide) (by decide)

/-- C2: for every 32-bit float bit pattern, including NaN payloads, signed
zeros and infinities, the bit pattern coming back from read_float applied to
the bytes emitted by write_float equals the original pattern bit for bit. -/
theorem float_roundtrip_bits (value : CFloat) (junk : List Nat)
    (h : value.bits < 2 ^ 32) :
    ((read_float (write_float value) junk).1).bits = value.bits := by
  have hc := read_write_float_core value [] junk h
  rw [List.append_nil] at hc
  rw [hc]

/-- Witness for C2 at a quiet NaN pattern with a nonzero payload and at the
negative zero pattern. -/
theorem float_roundtrip_bits_witness :
    ((read_float (write_float ⟨0x7FC00123⟩) []).1).bits = 0x7FC00123 ∧
    ((read_float (write_float ⟨0x80000000⟩) []).1).bits = 0x80000000 :=
  ⟨float_roundtrip_bits ⟨0x7FC00123⟩ [] (by decide),
   float_roundtrip_bits ⟨0x80000000⟩ [] (by decide)⟩

/-- C3 is refuted by the code: read_int32 and read_float never check how
many bytes fread delivered, so on an empty source with a zero-initialized
stack buffer both return a silently zero-filled value, and on a 1-byte
source read_int32 returns a partially decoded value built from the one real
byte and three uninitialized bytes.  No error is signalled anywhere. -/
theorem truncated_read_silent :
    read_int32 [] [0, 0, 0, 0] = (0, []) ∧
    read_float [] [0, 0, 0, 0] = (⟨0⟩, []) ∧
    read_int32 [0xAB] [0, 0, 0, 0] = (-1426063360, []) := by
  decide

/-- C4: write_struct emits the write_int32 bytes of the id field followed by
the write_float bytes of the value field, and read_struct over exactly those
bytes invokes read_int32 then read_float and reconstructs the record. -/
theorem record_roundtrip (s : MyStruct) (junk1 junk2 : List Nat)
    (hlo : -(2 ^ 31) ≤ s.id) (hhi : s.id < 2 ^ 31) (hv : s.value.bits < 2 ^ 32) :
    write_struct s = write_int32 s.id ++ write_float s.value ∧
    read_struct (write_struct s) junk1 junk2 = (s, []) := by
  refine ⟨rfl, ?_⟩
  have h1 := read_write_int32_core s.id (write_float s.value) junk1 hlo hhi
  have h2 := read_write_float_core s.value [] junk2 hv
  rw [List.append_nil] at h2
  simp only [read_struct, write_struct, h1, h2]

/-- Witness for C4 at the record with id 123 and the binary32 pattern of
456.789 (0x43E464FA) as value. -/
theorem record_roundtrip_witness :
    read_struct (write_struct ⟨123, ⟨0x43E464FA⟩⟩) [] [] = (⟨123, ⟨0x43E464FA⟩⟩, []) :=
  (record_roundtrip ⟨123, ⟨0x43E464FA⟩⟩ [] [] (by decide) (by decide) (by decide)).2

/-- C5 is refuted by the code: read_struct has no failure path at all.  On a
4-byte source holding only an encoded id, it decodes id = 123 from the real
bytes and fabricates value from the uninitialized buffer (here zeroed), a
partial decode with no propagated error. -/
theorem record_partial_decode_silent :
    read_struct [0, 0, 0, 123] [0, 0, 0, 0] [0, 0, 0, 0] = (⟨123, ⟨0⟩⟩, []) := by
  decide

/-- C6: integer encoding and decoding are mutually inverse.  Decoding any
4-byte sequence and re-encoding reproduces the bytes, and encoding is
injective on the whole 32-bit domain (with the round trip of C1 this makes
write_int32 a bijection onto 4-byte sequences). -/
theorem int32_bijection :
    (∀ b0 b1 b2 b3 : Nat, ∀ junk : List Nat,
      b0 < 256 → b1 < 256 → b2 < 256 → b3 < 256 →
      write_int32 (read_int32 [b0, b1, b2, b3] junk).1 = [b0, b1, b2, b3]) ∧
    (∀ v w : Int, -(2 ^ 31) ≤ v → v < 2 ^ 31 → -(2 ^ 31) ≤ w → w < 2 ^ 31 →
      write_int32 v = write_int32 w → v = w) := by
  constructor
  · intro b0 b1 b2 b3 junk h0 h1 h2 h3
    simp only [read_int32, fread4, List.length_cons, List.length_nil,
      List.take_succ_cons, List.take_nil, List.take_zero, List.cons_append,
      List.nil_append, List.getD_cons_zero, List.getD_cons_succ,
      List.drop_succ_cons, List.drop_nil, List.take_append]
    rw [be32_or_eq_add _ _ _ _ h0 h1 h2 h3]
    simp only [write_int32, toInt32]
    split <;> simp only [List.cons.injEq, and_true] <;>
      refine ⟨by omega, by omega, by omega, by omega⟩
  · intro v w hv1 hv2 hw1 hw2 heq
    have h1 := read_write_int32_core v [] [] hv1 hv2
    have h2 := read_write_int32_core w [] [] hw1 hw2
    rw [heq] at h1
    have := h1.symm.trans h2
    exact congrArg Prod.fst this

/-- Witness for C6: decoding then re-encoding the bytes DE AD BE EF, and
injectivity applied at 5 and 5. -/
theorem int32_bijection_witness :
    write_int32 (read_int32 [0xDE, 0xAD, 0xBE, 0xEF] []).1 = [0xDE, 0xAD, 0xBE, 0xEF] ∧
    (5 : Int) = 5 :=
  ⟨int32_bijection.1 0xDE 0xAD 0xBE 0xEF []
      (by decide) (by decide) (by decide) (by decide),
   int32_bijection.2 5 5 (by decide) (by decide) (by decide) (by decide) rfl⟩

/-- C7: write_int32 at 1 emits the bytes 00 00 00 01 and at -1 the bytes
FF FF FF FF, most significant byte first. -/
theorem int32_byte_order :
    write_int32 1 = [0x00, 0x00, 0x00, 0x01] ∧
    write_int32 (-1) = [0xFF, 0xFF, 0xFF, 0xFF] := by
  decide

/-- C8: for every input value, write_int32 and write_float emit exactly 4
bytes and write_struct emits exactly 8, the concatenation of the two field
encodings with nothing added. -/
theorem encode_lengths (v : Int) (f : CFloat) (s : MyStruct) :
    (write_int32 v).length = 4 ∧ (write_float f).length = 4 ∧
    (write_struct s).length = 8 ∧
    write_struct s = write_int32 s.id ++ write_float s.value :=
  ⟨rfl, rfl, rfl, rfl⟩

/-- C9: on a 4-byte input whose first byte has the high bit set, read_int32
returns the assembled big-endian pattern reinterpreted as twos complement,
that is the pattern minus 2 ^ 32, a negative value. -/
theorem read_int32_negative (b0 b1 b2 b3 : Nat) (junk : List Nat)
    (h0 : b0 < 256) (h1 : b1 < 256) (h2 : b2 < 256) (h3 : b3 < 256)
    (hneg : 128 ≤ b0) :
    (read_int32 [b0, b1, b2, b3] junk).1 =
      ((b0 * 2 ^ 24 + b1 * 2 ^ 16 + b2 * 2 ^ 8 + b3 : Nat) : Int) - 2 ^ 32 ∧
    (read_int32 [b0, b1, b2, b3] junk).1 < 0 := by
  simp only [read_int32, fread4, List.length_cons, List.length_nil,
    List.take_succ_cons, List.take_nil, List.take_zero, List.cons_append,
    List.nil_append, List.getD_cons_zero, List.getD_cons_succ,
    List.drop_succ_cons, List.drop_nil, List.take_append]
  rw [be32_or_eq_add _ _ _ _ h0 h1 h2 h3]
  simp only [toInt32]
  constructor
  · split <;> omega
  · split <;> omega

/-- Witness for C9 at the all-ones input, which decodes to -1. -/
theorem read_int32_negative_witness :
    (read_int32 [255, 255, 255, 255] []).1 = -1 ∧
    (read_int32 [255, 255, 255, 255] []).1 < 0 := by
  have h := read_int32_negative 255 255 255 255 []
    (by decide) (by decide) (by decide) (by decide) (by decide)
  exact ⟨h.1.trans (by norm_num), h.2⟩

/-- C10: on a source with at least 8 bytes, read_struct consumes exactly the
first 8 bytes, leaves every byte beyond them unread, and its record result
depends only on those 8 bytes (and not on the uninitialized buffers). -/
theorem read_struct_frame (src junk1 junk2 junk3 junk4 : List Nat)
    (h : 8 ≤ src.length) :
    (read_struct src junk1 junk2).2 = src.drop 8 ∧
    (read_struct src junk1 junk2).1 = (read_struct (src.take 8) junk3 junk4).1 := by
  have e1 : fread4 src junk1 = src.take 4 :=
    fread4_of_le_length _ _ (by omega)
  have e2 : fread4 (src.take 8) junk3 = src.take 4 := by
    rw [fread4_of_le_length _ _ (by rw [List.length_take]; omega), List.take_take]
    norm_num
  have e3 : fread4 (src.drop 4) junk2 = (src.drop 4).take 4 :=
    fread4_of_le_length _ _ (by rw [List.length_drop]; omega)
  have e4 : fread4 ((src.take 8).drop 4) junk4 = (src.drop 4).take 4 := by
    rw [fread4_of_le_length _ _ (by simp only [List.length_drop, List.length_take]; omega),
      List.drop_take, List.take_take]
    norm_num
  constructor
  · simp only [read_struct, read_int32, read_float, List.drop_drop]
  · simp only [read_struct, read_int32, read_float, e1, e2, e3, e4]

/-- Witness for C10 on a 9-byte source: the ninth byte is left unread. -/
theorem read_struct_frame_witness :
    (read_struct [1, 2, 3, 4, 5, 6, 7, 8, 9] [0, 0, 0, 0] [0, 0, 0, 0]).2 = [9] := by
  have h := read_struct_frame [1, 2, 3, 4, 5, 6, 7, 8, 9]
    [0, 0, 0, 0] [0, 0, 0, 0] [] [] (by decide)
  simpa using h.1
